import Mathlib

/-!
Shallow embedding of the client-side End-of-Life recalculation logic of the
EcoFlow LCA application (frontend/lib/eol-recalc.ts), over exact rationals.

JavaScript numbers are modelled as `ℚ`; `Record<string, _>` objects are
modelled as association lists with first-match lookup for own keys, plus
the prototype chain of an object literal: a bracket access whose key is
an own property of `Object.prototype` (such as `"toString"`) returns the
inherited non-nullish value, so the `??` fallback does not fire and
`Object.entries` of that value is empty; `Math.round` is modelled as
`fun x => ⌊x + 1/2⌋` (round half toward positive infinity), which is its
semantics on numbers; spreading `{...obj, f: v}` is modelled as a
structure update.
-/

/-- A node of the Sankey flow graph: `{ id, label, phase }`. -/
@[ext]
structure SankeyNode where
  id : String
  label : String
  phase : String
deriving DecidableEq

/-- A link of the Sankey flow graph: `{ source, target, value }`. -/
@[ext]
structure SankeyLink where
  source : String
  target : String
  value : ℚ
deriving DecidableEq

/-- The five-phase breakdown inside the summary. -/
@[ext]
structure Breakdown where
  materials : ℚ
  manufacturing : ℚ
  transport : ℚ
  use : ℚ
  end_of_life : ℚ
deriving DecidableEq

/-- The `summary` object of a Sankey response. -/
@[ext]
structure Summary where
  total_co2e_kg : ℚ
  breakdown : Breakdown
  weight_kg : ℚ
  category : String
  eol_scenario : String
deriving DecidableEq

/-- One entry of `material_details`. -/
@[ext]
structure MaterialDetail where
  name : String
  fraction : ℚ
  weight_kg : ℚ
  impact_kg_co2e : ℚ
  factor : ℚ
deriving DecidableEq

/-- The full `SankeyData` payload. `per_material_weights` is the
`Record<string, number>` mapping, kept as an association list. -/
@[ext]
structure SankeyData where
  nodes : List SankeyNode
  links : List SankeyLink
  summary : Summary
  per_material_weights : List (String × ℚ)
  material_details : List MaterialDetail
deriving DecidableEq

/-- First-match lookup in a record modelled as an association list
(`record[key]`, returning `none` when the key is absent). -/
def recordGet {α : Type} (table : List (String × α)) (key : String) : Option α :=
  (table.find? (fun p => p.1 == key)).map Prod.snd

/-- `EOL_METHOD_FACTORS` constant table from eol-recalc.ts. -/
def EOL_METHOD_FACTORS : List (String × ℚ) :=
  [("landfill", 0.5), ("incineration", 1.0), ("recycling", -0.3)]

/-- The `baseline` disposal mix. -/
def baselineMix : List (String × ℚ) :=
  [("landfill", 0.6), ("incineration", 0.2), ("recycling", 0.2)]

/-- The `best_case` disposal mix. -/
def bestCaseMix : List (String × ℚ) :=
  [("landfill", 0.1), ("incineration", 0.1), ("recycling", 0.8)]

/-- The `worst_case` disposal mix. -/
def worstCaseMix : List (String × ℚ) :=
  [("landfill", 0.8), ("incineration", 0.2), ("recycling", 0.0)]

/-- `EOL_SCENARIOS` constant table from eol-recalc.ts. -/
def EOL_SCENARIOS : List (String × List (String × ℚ)) :=
  [("baseline", baselineMix), ("best_case", bestCaseMix), ("worst_case", worstCaseMix)]

/-- `Math.round` on numbers: round half toward positive infinity. -/
def jsRound (x : ℚ) : ℤ := ⌊x + 1/2⌋

/-- The rounding used throughout `recalculateEOL`:
`Math.round(x * 10000) / 10000`. -/
def round4 (x : ℚ) : ℚ := (jsRound (x * 10000) : ℚ) / 10000

/-- The string-keyed own properties of `Object.prototype` (data properties
and accessors): bracket access on a plain object literal with one of these
keys returns the inherited value, which is neither null nor undefined, so
a `??` fallback does not fire on it. -/
def OBJECT_PROTOTYPE_KEYS : List String :=
  ["constructor", "hasOwnProperty", "isPrototypeOf", "propertyIsEnumerable",
   "toLocaleString", "toString", "valueOf", "__defineGetter__", "__defineSetter__",
   "__lookupGetter__", "__lookupSetter__", "__proto__"]

/-- The entry list `Object.entries(EOL_SCENARIOS[scenario] ?? EOL_SCENARIOS.baseline)`
that the blended-factor reduce iterates: an own key of `EOL_SCENARIOS`
yields that scenario's mix; a key inherited from `Object.prototype` yields
a non-nullish non-mix value (the `??` fallback does not fire) whose own
enumerable entry list is empty; any other selector makes the lookup
undefined, so the `??` fallback selects the baseline mix. -/
def mixOf (scenario : String) : List (String × ℚ) :=
  match recordGet EOL_SCENARIOS scenario with
  | some mix => mix
  | none => if scenario ∈ OBJECT_PROTOTYPE_KEYS then [] else baselineMix

/-- The blended EOL factor of a mix:
`Object.entries(mix).reduce((sum, [method, fraction]) =>
   sum + fraction * (EOL_METHOD_FACTORS[method] ?? 0), 0)`. -/
def blendedFactorOfMix (mix : List (String × ℚ)) : ℚ :=
  mix.foldl (fun sum p => sum + p.2 * ((recordGet EOL_METHOD_FACTORS p.1).getD 0)) 0

/-- The new EOL total:
`Object.values(original.per_material_weights).reduce(
   (sum, weight) => sum + weight * blendedFactor, 0)`. -/
def newEolOf (original : SankeyData) (scenario : String) : ℚ :=
  original.per_material_weights.foldl
    (fun sum p => sum + p.2 * blendedFactorOfMix (mixOf scenario)) 0

/-- The new (unrounded) total:
`b.materials + b.manufacturing + b.transport + b.use + newEol`. -/
def newTotalOf (original : SankeyData) (scenario : String) : ℚ :=
  original.summary.breakdown.materials + original.summary.breakdown.manufacturing +
    original.summary.breakdown.transport + original.summary.breakdown.use +
    newEolOf original scenario

/-- The per-link update inside `original.links.map`: the EOL→total link gets
value `Math.round(Math.abs(newEol) * 10000) / 10000`; any other link is
cloned unchanged. -/
def updateLink (newEol : ℚ) (link : SankeyLink) : SankeyLink :=
  if link.source == "eol" && link.target == "total" then
    { link with value := round4 |newEol| }
  else
    link

/-- `recalculateEOL(original, scenario)` from eol-recalc.ts. -/
def recalculateEOL (original : SankeyData) (scenario : String) : SankeyData :=
  { original with
    links := original.links.map (updateLink (newEolOf original scenario)),
    summary := { original.summary with
      total_co2e_kg := round4 (newTotalOf original scenario),
      eol_scenario := scenario,
      breakdown := { original.summary.breakdown with
        end_of_life := round4 (newEolOf original scenario) } } }

/-- Concrete lookup: the landfill factor. -/
lemma recordGet_landfill : recordGet EOL_METHOD_FACTORS "landfill" = some 0.5 := rfl

/-- Concrete lookup: the incineration factor. -/
lemma recordGet_incineration : recordGet EOL_METHOD_FACTORS "incineration" = some 1.0 := rfl

/-- Concrete lookup: the recycling factor. -/
lemma recordGet_recycling : recordGet EOL_METHOD_FACTORS "recycling" = some (-0.3) := rfl

/-- The baseline blended factor is 0.44. -/
lemma blended_baseline : blendedFactorOfMix baselineMix = 0.44 := by
  simp [blendedFactorOfMix, baselineMix, recordGet_landfill, recordGet_incineration,
    recordGet_recycling]
  norm_num

/-- The best_case blended factor is -0.09. -/
lemma blended_best_case : blendedFactorOfMix bestCaseMix = -0.09 := by
  simp [blendedFactorOfMix, bestCaseMix, recordGet_landfill, recordGet_incineration,
    recordGet_recycling]
  norm_num

/-- The worst_case blended factor is 0.6. -/
lemma blended_worst_case : blendedFactorOfMix worstCaseMix = 0.6 := by
  simp [blendedFactorOfMix, worstCaseMix, recordGet_landfill, recordGet_incineration,
    recordGet_recycling]
  norm_num

/-- Concrete scenario lookup: baseline. -/
lemma mixOf_baseline : mixOf "baseline" = baselineMix := rfl

/-- Concrete scenario lookup: best_case. -/
lemma mixOf_best_case : mixOf "best_case" = bestCaseMix := rfl

/-- Concrete scenario lookup: worst_case. -/
lemma mixOf_worst_case : mixOf "worst_case" = worstCaseMix := rfl

example : mixOf "bogus" = baselineMix := rfl

example : round4 (3.14159 : ℚ) = 3.1416 := by norm_num [round4, jsRound]

example : round4 (-(1:ℚ)/20000) = 0 := by norm_num [round4, jsRound]

example : round4 ((1:ℚ)/20000) = 1/10000 := by norm_num [round4, jsRound]

/-- A selector that is not an own key of `EOL_SCENARIOS` finds no entry. -/
lemma recordGet_scenarios_none (s : String) (h1 : s ≠ "baseline")
    (h2 : s ≠ "best_case") (h3 : s ≠ "worst_case") :
    recordGet EOL_SCENARIOS s = none := by
  have b1 : (("baseline" : String) == s) = false := beq_eq_false_iff_ne.mpr (Ne.symm h1)
  have b2 : (("best_case" : String) == s) = false := beq_eq_false_iff_ne.mpr (Ne.symm h2)
  have b3 : (("worst_case" : String) == s) = false := beq_eq_false_iff_ne.mpr (Ne.symm h3)
  simp [recordGet, EOL_SCENARIOS, List.find?, b1, b2, b3]

/-- A scenario selector that is neither predefined nor inherited from
`Object.prototype` makes the `??` fallback fire, so the entry list used is
the baseline mix. -/
lemma mixOf_unknown (s : String) (h1 : s ≠ "baseline") (h2 : s ≠ "best_case")
    (h3 : s ≠ "worst_case") (h4 : s ∉ OBJECT_PROTOTYPE_KEYS) :
    mixOf s = baselineMix := by
  unfold mixOf
  rw [recordGet_scenarios_none s h1 h2 h3]
  show (if s ∈ OBJECT_PROTOTYPE_KEYS then ([] : List (String × ℚ)) else baselineMix)
      = baselineMix
  rw [if_neg h4]

/-- A scenario selector inherited from `Object.prototype` dodges the `??`
fallback and yields a value with an empty entry list. -/
lemma mixOf_proto (s : String) (h4 : s ∈ OBJECT_PROTOTYPE_KEYS) : mixOf s = [] := by
  have h1 : s ≠ "baseline" := by rintro rfl; revert h4; decide
  have h2 : s ≠ "best_case" := by rintro rfl; revert h4; decide
  have h3 : s ≠ "worst_case" := by rintro rfl; revert h4; decide
  unfold mixOf
  rw [recordGet_scenarios_none s h1 h2 h3]
  show (if s ∈ OBJECT_PROTOTYPE_KEYS then ([] : List (String × ℚ)) else baselineMix) = []
  rw [if_pos h4]

/-- The entry list used by any selector is one of the three predefined
mixes or empty (the prototype-inherited case). -/
lemma mixOf_cases (s : String) :
    mixOf s = baselineMix ∨ mixOf s = bestCaseMix ∨ mixOf s = worstCaseMix
      ∨ mixOf s = [] := by
  by_cases h1 : s = "baseline"
  · subst h1; exact Or.inl mixOf_baseline
  by_cases h2 : s = "best_case"
  · subst h2; exact Or.inr (Or.inl mixOf_best_case)
  by_cases h3 : s = "worst_case"
  · subst h3; exact Or.inr (Or.inr (Or.inl mixOf_worst_case))
  by_cases h4 : s ∈ OBJECT_PROTOTYPE_KEYS
  · exact Or.inr (Or.inr (Or.inr (mixOf_proto s h4)))
  exact Or.inl (mixOf_unknown s h1 h2 h3 h4)

/-- The weighted fold over the per-material weights equals the sum of the
weights times the constant factor. -/
lemma foldl_weight (c : ℚ) : ∀ (l : List (String × ℚ)) (a : ℚ),
    l.foldl (fun sum p => sum + p.2 * c) a = a + (l.map Prod.snd).sum * c := by
  intro l
  induction l with
  | nil => intro a; simp
  | cons p l ih =>
    intro a
    simp only [List.foldl_cons, List.map_cons, List.sum_cons]
    rw [ih]
    ring

/-- The sum of the per-material weights of a result. -/
def weightSum (r : SankeyData) : ℚ := (r.per_material_weights.map Prod.snd).sum

/-- The recalculated EOL value is (total per-material weight) × blended factor. -/
lemma newEolOf_eq (r : SankeyData) (s : String) :
    newEolOf r s = weightSum r * blendedFactorOfMix (mixOf s) := by
  unfold newEolOf weightSum
  rw [foldl_weight]
  ring

/-- Ceiling of a non-integer is its floor plus one. -/
lemma ceil_eq_floor_succ (y : ℚ) (h : Int.fract y ≠ 0) : ⌈y⌉ = ⌊y⌋ + 1 := by
  refine le_antisymm (Int.ceil_le_floor_add_one y) ?_
  by_contra hlt
  push_neg at hlt
  have h1 : ⌈y⌉ ≤ ⌊y⌋ := by omega
  have h2 : ((⌊y⌋ : ℤ) : ℚ) ≤ y := Int.floor_le y
  have h3 : y ≤ ((⌈y⌉ : ℤ) : ℚ) := Int.le_ceil y
  have h4 : ((⌈y⌉ : ℤ) : ℚ) ≤ ((⌊y⌋ : ℤ) : ℚ) := by exact_mod_cast h1
  have h5 : y = ((⌊y⌋ : ℤ) : ℚ) := le_antisymm (by linarith) h2
  apply h
  have hd : Int.fract y = y - ((⌊y⌋ : ℤ) : ℚ) := rfl
  rw [hd, sub_eq_zero]
  exact h5

/-- Away from half-ticks, rounding half up commutes with negation. -/
lemma floor_half_symm (t : ℚ) (h : Int.fract (t + 1/2) ≠ 0) :
    ⌊t + 1/2⌋ = -⌊-t + 1/2⌋ := by
  have h1 : (-t + 1/2 : ℚ) = -(t - 1/2) := by ring
  rw [h1, Int.floor_neg, neg_neg]
  have h2 : (t - 1/2 : ℚ) = (t + 1/2) - 1 := by ring
  rw [h2, Int.ceil_sub_one, ceil_eq_floor_succ _ h]
  omega

/-- Shifting by an exact number of 4-decimal ticks commutes with `round4`. -/
lemma round4_add_tick (a : ℚ) (k : ℤ) :
    round4 (a + (k : ℚ) / 10000) = round4 a + (k : ℚ) / 10000 := by
  unfold round4 jsRound
  have h : (a + (k : ℚ) / 10000) * 10000 + 1/2 = (a * 10000 + 1/2) + (k : ℚ) := by ring
  rw [h, Int.floor_add_int]
  push_cast
  ring

/-- `round4` moves a value by at most half a tick. -/
lemma abs_round4_sub_le (x : ℚ) : |round4 x - x| ≤ 1/20000 := by
  unfold round4 jsRound
  have h1 : ((⌊x * 10000 + 1/2⌋ : ℤ) : ℚ) ≤ x * 10000 + 1/2 :=
    Int.floor_le (x * 10000 + 1/2)
  have h2 : x * 10000 + 1/2 < ((⌊x * 10000 + 1/2⌋ : ℤ) : ℚ) + 1 :=
    Int.lt_floor_add_one (x * 10000 + 1/2)
  rw [abs_le]
  constructor <;> [linarith; linarith]

/-- `round4` of a nonnegative value is nonnegative. -/
lemma round4_nonneg (x : ℚ) (hx : 0 ≤ x) : 0 ≤ round4 x := by
  unfold round4 jsRound
  apply div_nonneg _ (by norm_num)
  have h : (0 : ℤ) ≤ ⌊x * 10000 + 1/2⌋ := Int.floor_nonneg.mpr (by nlinarith)
  exact_mod_cast h

/-- Away from negative half-ticks, `round4` commutes with absolute value. -/
lemma round4_abs (x : ℚ) (h : 0 ≤ x ∨ Int.fract (x * 10000 + 1/2) ≠ 0) :
    round4 |x| = |round4 x| := by
  rcases le_or_lt 0 x with hx | hx
  · rw [abs_of_nonneg hx, abs_of_nonneg (round4_nonneg x hx)]
  · have hf : Int.fract (x * 10000 + 1/2) ≠ 0 := h.resolve_left (not_le.mpr hx)
    rw [abs_of_neg hx]
    unfold round4 jsRound
    have h1 : (-x) * 10000 + 1/2 = -(x * 10000) + 1/2 := by ring
    rw [h1, floor_half_symm (x * 10000) hf]
    have hflo : (0 : ℤ) ≤ ⌊-(x * 10000) + 1/2⌋ := by
      apply Int.floor_nonneg.mpr
      nlinarith
    have hc : (0 : ℚ) ≤ ((⌊-(x * 10000) + 1/2⌋ : ℤ) : ℚ) := by exact_mod_cast hflo
    push_cast
    rw [neg_div, abs_neg, abs_of_nonneg (by positivity)]

/-- Pairs of a list zipped with its own image under a map are related by
that map. -/
lemma zip_map_snd {α : Type} (f : α → α) : ∀ (l : List α),
    ∀ p ∈ l.zip (l.map f), p.2 = f p.1 := by
  intro l
  induction l with
  | nil => intro p hp; simp at hp
  | cons a l ih =>
    intro p hp
    rw [List.map_cons, List.zip_cons_cons, List.mem_cons] at hp
    rcases hp with h | h
    · rw [h]
    · exact ih p h

/-- Updating the EOL link with the same value twice is the same as once. -/
lemma updateLink_idem (e : ℚ) (l : SankeyLink) :
    updateLink e (updateLink e l) = updateLink e l := by
  unfold updateLink
  by_cases h : (l.source == "eol" && l.target == "total") = true
  · simp [h]
  · simp [h]

/-- A concrete analysis result (weights summing to 1 kg) used to
instantiate the theorems. -/
def sampleResult : SankeyData :=
  { nodes := [⟨"eol", "End of Life", "eol"⟩, ⟨"total", "Total", "total"⟩],
    links := [⟨"materials", "total", 2.0⟩, ⟨"eol", "total", 0.44⟩],
    summary := { total_co2e_kg := 5.94,
                 breakdown := ⟨2.0, 1.5, 0.5, 1.5, 0.44⟩,
                 weight_kg := 1.0,
                 category := "electronics",
                 eol_scenario := "baseline" },
    per_material_weights := [("aluminum", 0.6), ("abs_plastic", 0.4)],
    material_details := [⟨"aluminum", 0.6, 0.6, 4.2, 7.0⟩] }

/-- A concrete analysis result whose best_case EOL value lands exactly on a
negative half-tick of the fourth decimal. -/
def negHalfResult : SankeyData :=
  { nodes := [],
    links := [⟨"eol", "total", 0.0001⟩],
    summary := { total_co2e_kg := 0,
                 breakdown := ⟨0, 0, 0, 0, 0⟩,
                 weight_kg := 1,
                 category := "toys",
                 eol_scenario := "baseline" },
    per_material_weights := [("nylon", 1/1800)],
    material_details := [] }

/-- The best_case EOL value of `negHalfResult` is exactly minus half of a
fourth-decimal tick. -/
lemma negHalf_newEol : newEolOf negHalfResult "best_case" = -(1/20000) := by
  rw [newEolOf_eq, mixOf_best_case, blended_best_case]
  norm_num [weightSum, negHalfResult]

/-- C2: for every result and every scenario selector, `recalculateEOL`
leaves the materials, manufacturing, transport and use phase values, the
material_details list, the per_material_weights mapping, the node list,
the summary's weight and category, and every link other than the
eol→total link identical to the input; only end_of_life, the total, the
scenario name and the eol→total link value may differ. -/
theorem C2_recalc_isolation (r : SankeyData) (s : String) :
    (recalculateEOL r s).summary.breakdown.materials = r.summary.breakdown.materials
    ∧ (recalculateEOL r s).summary.breakdown.manufacturing = r.summary.breakdown.manufacturing
    ∧ (recalculateEOL r s).summary.breakdown.transport = r.summary.breakdown.transport
    ∧ (recalculateEOL r s).summary.breakdown.use = r.summary.breakdown.use
    ∧ (recalculateEOL r s).material_details = r.material_details
    ∧ (recalculateEOL r s).per_material_weights = r.per_material_weights
    ∧ (recalculateEOL r s).nodes = r.nodes
    ∧ (recalculateEOL r s).summary.weight_kg = r.summary.weight_kg
    ∧ (recalculateEOL r s).summary.category = r.summary.category
    ∧ (recalculateEOL r s).links.length = r.links.length
    ∧ ∀ p ∈ r.links.zip (recalculateEOL r s).links,
        ¬(p.1.source = "eol" ∧ p.1.target = "total") → p.2 = p.1 := by
  refine ⟨rfl, rfl, rfl, rfl, rfl, rfl, rfl, rfl, rfl, List.length_map _ _, ?_⟩
  intro p hp hne
  have hz : p.2 = updateLink (newEolOf r s) p.1 :=
    zip_map_snd (updateLink (newEolOf r s)) r.links p hp
  rw [hz]
  unfold updateLink
  rw [if_neg]
  intro hcond
  rw [Bool.and_eq_true, beq_iff_eq, beq_iff_eq] at hcond
  exact hne hcond

/-- C2 witness: concrete instantiation of the isolation theorem. -/
theorem C2_recalc_isolation_witness :
    (recalculateEOL sampleResult "worst_case").material_details = sampleResult.material_details
    ∧ (recalculateEOL sampleResult "worst_case").per_material_weights
        = sampleResult.per_material_weights
    ∧ ∀ p ∈ sampleResult.links.zip (recalculateEOL sampleResult "worst_case").links,
        ¬(p.1.source = "eol" ∧ p.1.target = "total") → p.2 = p.1 := by
  have h := C2_recalc_isolation sampleResult "worst_case"
  exact ⟨h.2.2.2.2.1, h.2.2.2.2.2.1, h.2.2.2.2.2.2.2.2.2.2⟩

/-- C5: recalculating twice in a row with the same scenario yields a
result identical (in every field) to recalculating once. -/
theorem C5_recalc_idempotent (r : SankeyData) (s : String) :
    recalculateEOL (recalculateEOL r s) s = recalculateEOL r s := by
  have hlinks : ((recalculateEOL r s).links).map
      (updateLink (newEolOf (recalculateEOL r s) s)) = (recalculateEOL r s).links := by
    show (r.links.map (updateLink (newEolOf r s))).map (updateLink (newEolOf r s))
        = r.links.map (updateLink (newEolOf r s))
    rw [List.map_map]
    congr 1
    funext l
    exact updateLink_idem (newEolOf r s) l
  refine SankeyData.ext rfl ?_ rfl rfl rfl
  exact hlinks

/-- C6: the stored total of any recalculated result equals the sum of its
stored five-phase breakdown to within one fourth-decimal tick. -/
theorem C6_total_consistency (r : SankeyData) (s : String) :
    |(recalculateEOL r s).summary.total_co2e_kg -
      ((recalculateEOL r s).summary.breakdown.materials +
       (recalculateEOL r s).summary.breakdown.manufacturing +
       (recalculateEOL r s).summary.breakdown.transport +
       (recalculateEOL r s).summary.breakdown.use +
       (recalculateEOL r s).summary.breakdown.end_of_life)| ≤ 1/10000 := by
  show |round4 (newTotalOf r s) -
      (r.summary.breakdown.materials + r.summary.breakdown.manufacturing +
       r.summary.breakdown.transport + r.summary.breakdown.use +
       round4 (newEolOf r s))| ≤ 1/10000
  have hT : newTotalOf r s =
      r.summary.breakdown.materials + r.summary.breakdown.manufacturing +
      r.summary.breakdown.transport + r.summary.breakdown.use + newEolOf r s := rfl
  have h1 := abs_round4_sub_le (newTotalOf r s)
  have h2 := abs_round4_sub_le (newEolOf r s)
  rw [abs_le] at h1 h2 ⊢
  constructor
  · linarith [h1.1, h2.2]
  · linarith [h1.2, h2.1]

/-- C9: the client constant tables carry exactly the spec's authoritative
values, and each predefined scenario's fractions sum to exactly 1. -/
theorem C9_constant_tables :
    recordGet EOL_SCENARIOS "baseline" =
      some [("landfill", (0.6 : ℚ)), ("incineration", 0.2), ("recycling", 0.2)]
    ∧ recordGet EOL_SCENARIOS "best_case" =
      some [("landfill", (0.1 : ℚ)), ("incineration", 0.1), ("recycling", 0.8)]
    ∧ recordGet EOL_SCENARIOS "worst_case" =
      some [("landfill", (0.8 : ℚ)), ("incineration", 0.2), ("recycling", 0.0)]
    ∧ recordGet EOL_METHOD_FACTORS "landfill" = some 0.5
    ∧ recordGet EOL_METHOD_FACTORS "incineration" = some 1.0
    ∧ recordGet EOL_METHOD_FACTORS "recycling" = some (-0.3)
    ∧ (baselineMix.map Prod.snd).sum = 1
    ∧ (bestCaseMix.map Prod.snd).sum = 1
    ∧ (worstCaseMix.map Prod.snd).sum = 1 := by
  refine ⟨rfl, rfl, rfl, rfl, rfl, rfl, ?_, ?_, ?_⟩
  · simp [baselineMix]; norm_num
  · simp [bestCaseMix]; norm_num
  · simp [worstCaseMix]; norm_num

/-- C1: for every result and predefined scenario, the recalculated EOL is
the (rounded) sum over the original per-material weights of weight times
blended factor, the recalculated total is the (rounded) sum of the four
unchanged phases plus the new EOL value; and on any result whose weights
sum to 1 kg, baseline gives EOL 0.44, best_case gives EOL -0.09, the total
drops by exactly 0.53 between them, and the other four phases are
unchanged in both. -/
theorem C1_recalc_formula (r : SankeyData) (s : String)
    (_hs : s = "baseline" ∨ s = "best_case" ∨ s = "worst_case") :
    ((recalculateEOL r s).summary.breakdown.end_of_life
        = round4 (weightSum r * blendedFactorOfMix (mixOf s))
      ∧ (recalculateEOL r s).summary.total_co2e_kg
        = round4 (r.summary.breakdown.materials + r.summary.breakdown.manufacturing
            + r.summary.breakdown.transport + r.summary.breakdown.use
            + weightSum r * blendedFactorOfMix (mixOf s)))
    ∧ (weightSum r = 1 →
        (recalculateEOL r "baseline").summary.breakdown.end_of_life = 0.44
        ∧ (recalculateEOL r "best_case").summary.breakdown.end_of_life = -0.09
        ∧ (recalculateEOL r "baseline").summary.total_co2e_kg
            - (recalculateEOL r "best_case").summary.total_co2e_kg = 0.53
        ∧ (recalculateEOL r "baseline").summary.breakdown.materials
            = r.summary.breakdown.materials
        ∧ (recalculateEOL r "baseline").summary.breakdown.manufacturing
            = r.summary.breakdown.manufacturing
        ∧ (recalculateEOL r "baseline").summary.breakdown.transport
            = r.summary.breakdown.transport
        ∧ (recalculateEOL r "baseline").summary.breakdown.use
            = r.summary.breakdown.use
        ∧ (recalculateEOL r "best_case").summary.breakdown.materials
            = r.summary.breakdown.materials
        ∧ (recalculateEOL r "best_case").summary.breakdown.manufacturing
            = r.summary.breakdown.manufacturing
        ∧ (recalculateEOL r "best_case").summary.breakdown.transport
            = r.summary.breakdown.transport
        ∧ (recalculateEOL r "best_case").summary.breakdown.use
            = r.summary.breakdown.use) := by
  constructor
  · constructor
    · show round4 (newEolOf r s) = round4 (weightSum r * blendedFactorOfMix (mixOf s))
      rw [newEolOf_eq]
    · show round4 (newTotalOf r s) = _
      unfold newTotalOf
      rw [newEolOf_eq]
  · intro hw
    have hbase : newEolOf r "baseline" = 0.44 := by
      rw [newEolOf_eq, mixOf_baseline, blended_baseline, hw, one_mul]
    have hbest : newEolOf r "best_case" = -0.09 := by
      rw [newEolOf_eq, mixOf_best_case, blended_best_case, hw, one_mul]
    refine ⟨?_, ?_, ?_, rfl, rfl, rfl, rfl, rfl, rfl, rfl, rfl⟩
    · show round4 (newEolOf r "baseline") = 0.44
      rw [hbase]
      norm_num [round4, jsRound]
    · show round4 (newEolOf r "best_case") = -0.09
      rw [hbest]
      norm_num [round4, jsRound]
    · show round4 (newTotalOf r "baseline") - round4 (newTotalOf r "best_case") = 0.53
      unfold newTotalOf
      rw [hbase, hbest]
      have c1 : (0.44 : ℚ) = ((4400 : ℤ) : ℚ) / 10000 := by norm_num
      have c2 : (-0.09 : ℚ) = ((-900 : ℤ) : ℚ) / 10000 := by norm_num
      rw [c1, c2, round4_add_tick, round4_add_tick]
      push_cast
      ring_nf

/-- C1 witness: the formula and the concrete 0.44 / -0.09 / 0.53 instance
on a concrete result with weights summing to 1. -/
theorem C1_recalc_formula_witness :
    (("best_case" : String) = "baseline" ∨ ("best_case" : String) = "best_case"
      ∨ ("best_case" : String) = "worst_case")
    ∧ weightSum sampleResult = 1
    ∧ (recalculateEOL sampleResult "best_case").summary.breakdown.end_of_life
        = round4 (weightSum sampleResult * blendedFactorOfMix (mixOf "best_case"))
    ∧ (recalculateEOL sampleResult "baseline").summary.breakdown.end_of_life = 0.44
    ∧ (recalculateEOL sampleResult "best_case").summary.breakdown.end_of_life = -0.09
    ∧ (recalculateEOL sampleResult "baseline").summary.total_co2e_kg
        - (recalculateEOL sampleResult "best_case").summary.total_co2e_kg = 0.53 := by
  have hs : ("best_case" : String) = "baseline" ∨ ("best_case" : String) = "best_case"
      ∨ ("best_case" : String) = "worst_case" := Or.inr (Or.inl rfl)
  have hw : weightSum sampleResult = 1 := by norm_num [weightSum, sampleResult]
  have h := C1_recalc_formula sampleResult "best_case" hs
  exact ⟨hs, hw, h.1.1, (h.2 hw).1, (h.2 hw).2.1, (h.2 hw).2.2.1⟩

/-- The entry list of the prototype-inherited selector "toString" is empty. -/
lemma mixOf_toString : mixOf "toString" = [] := mixOf_proto "toString" (by decide)

/-- The entry list of the prototype-inherited selector "valueOf" is empty. -/
lemma mixOf_valueOf : mixOf "valueOf" = [] := mixOf_proto "valueOf" (by decide)

/-- On the sample result the baseline recalculation stores EOL 0.44. -/
lemma sampleResult_baseline_eol :
    (recalculateEOL sampleResult "baseline").summary.breakdown.end_of_life = 0.44 := by
  show round4 (newEolOf sampleResult "baseline") = 0.44
  rw [newEolOf_eq, mixOf_baseline, blended_baseline]
  norm_num [weightSum, sampleResult, round4, jsRound]

/-- Recalculating with a selector whose entry list is empty yields EOL 0:
the blended factor of an empty entry list is 0. -/
lemma recalc_empty_mix_eol (r : SankeyData) (s : String) (h : mixOf s = []) :
    (recalculateEOL r s).summary.breakdown.end_of_life = 0 := by
  show round4 (newEolOf r s) = 0
  rw [newEolOf_eq, h]
  have hz : blendedFactorOfMix [] = 0 := rfl
  rw [hz, mul_zero]
  norm_num [round4, jsRound]

/-- C8 counterexample: "toString" is not a predefined scenario name, yet
recalculating with it does not reproduce the baseline numbers — the JS
lookup finds the inherited `Object.prototype.toString`, the `??` fallback
never fires, the entry list is empty and the blended factor is 0, so the
stored EOL is 0 while the baseline recalculation stores 0.44. -/
theorem C8_proto_counterexample :
    (("toString" : String) ≠ "baseline" ∧ ("toString" : String) ≠ "best_case"
      ∧ ("toString" : String) ≠ "worst_case")
    ∧ (recalculateEOL sampleResult "toString").summary.breakdown.end_of_life = 0
    ∧ (recalculateEOL sampleResult "baseline").summary.breakdown.end_of_life = 0.44
    ∧ (recalculateEOL sampleResult "toString").summary.breakdown.end_of_life
        ≠ (recalculateEOL sampleResult "baseline").summary.breakdown.end_of_life := by
  have h0 : (recalculateEOL sampleResult "toString").summary.breakdown.end_of_life = 0 :=
    recalc_empty_mix_eol sampleResult "toString" mixOf_toString
  refine ⟨⟨by decide, by decide, by decide⟩, h0, sampleResult_baseline_eol, ?_⟩
  rw [h0, sampleResult_baseline_eol]
  norm_num

/-- C8 amended: a scenario selector that is neither one of the three
predefined names nor a property key inherited from `Object.prototype`
does not fail: the recalculated EOL value, total and link list are those
produced by recalculating with the baseline scenario. (At an inherited
prototype key the call still does not fail, but it computes from an empty
entry list, so its numbers are not the baseline ones.) -/
theorem C8_unknown_falls_back_amended (r : SankeyData) (s : String)
    (h1 : s ≠ "baseline") (h2 : s ≠ "best_case") (h3 : s ≠ "worst_case")
    (h4 : s ∉ OBJECT_PROTOTYPE_KEYS) :
    (recalculateEOL r s).summary.breakdown.end_of_life
        = (recalculateEOL r "baseline").summary.breakdown.end_of_life
    ∧ (recalculateEOL r s).summary.total_co2e_kg
        = (recalculateEOL r "baseline").summary.total_co2e_kg
    ∧ (recalculateEOL r s).links = (recalculateEOL r "baseline").links := by
  have hmix : mixOf s = mixOf "baseline" := by
    rw [mixOf_unknown s h1 h2 h3 h4, mixOf_baseline]
  have he : newEolOf r s = newEolOf r "baseline" := by
    rw [newEolOf_eq, newEolOf_eq, hmix]
  refine ⟨?_, ?_, ?_⟩
  · show round4 (newEolOf r s) = round4 (newEolOf r "baseline")
    rw [he]
  · show round4 (newTotalOf r s) = round4 (newTotalOf r "baseline")
    unfold newTotalOf
    rw [he]
  · show r.links.map (updateLink (newEolOf r s))
        = r.links.map (updateLink (newEolOf r "baseline"))
    rw [he]

/-- C8 witness: the fallback on the concrete unknown, non-prototype
selector "mystery". -/
theorem C8_unknown_falls_back_amended_witness :
    (("mystery" : String) ≠ "baseline" ∧ ("mystery" : String) ≠ "best_case"
      ∧ ("mystery" : String) ≠ "worst_case"
      ∧ ("mystery" : String) ∉ OBJECT_PROTOTYPE_KEYS)
    ∧ ((recalculateEOL sampleResult "mystery").summary.breakdown.end_of_life
        = (recalculateEOL sampleResult "baseline").summary.breakdown.end_of_life
      ∧ (recalculateEOL sampleResult "mystery").summary.total_co2e_kg
        = (recalculateEOL sampleResult "baseline").summary.total_co2e_kg
      ∧ (recalculateEOL sampleResult "mystery").links
        = (recalculateEOL sampleResult "baseline").links) := by
  refine ⟨⟨by decide, by decide, by decide, by decide⟩, ?_⟩
  exact C8_unknown_falls_back_amended sampleResult "mystery"
    (by decide) (by decide) (by decide) (by decide)

/-- C10 counterexample: the unrecognized selector "valueOf" is recorded
verbatim in `eol_scenario`, but its numeric values were not computed from
the baseline mix — the prototype-inherited lookup gives an empty entry
list, so the stored EOL is 0 while the baseline recalculation stores
0.44. -/
theorem C10_proto_counterexample :
    (("valueOf" : String) ≠ "baseline" ∧ ("valueOf" : String) ≠ "best_case"
      ∧ ("valueOf" : String) ≠ "worst_case")
    ∧ (recalculateEOL sampleResult "valueOf").summary.eol_scenario = "valueOf"
    ∧ (recalculateEOL sampleResult "valueOf").summary.breakdown.end_of_life = 0
    ∧ (recalculateEOL sampleResult "valueOf").summary.breakdown.end_of_life
        ≠ (recalculateEOL sampleResult "baseline").summary.breakdown.end_of_life := by
  have h0 : (recalculateEOL sampleResult "valueOf").summary.breakdown.end_of_life = 0 :=
    recalc_empty_mix_eol sampleResult "valueOf" mixOf_valueOf
  refine ⟨⟨by decide, by decide, by decide⟩, rfl, h0, ?_⟩
  rw [h0, sampleResult_baseline_eol]
  norm_num

/-- C10 amended: on an unknown scenario selector the recorded scenario
name is the unknown selector itself; and when the selector is also not a
property key inherited from `Object.prototype`, the numeric EOL value was
computed from the baseline mix (at a prototype key it is computed from an
empty entry list instead). -/
theorem C10_records_unknown_name_amended (r : SankeyData) (s : String)
    (h1 : s ≠ "baseline") (h2 : s ≠ "best_case") (h3 : s ≠ "worst_case")
    (h4 : s ∉ OBJECT_PROTOTYPE_KEYS) :
    (recalculateEOL r s).summary.eol_scenario = s
    ∧ (recalculateEOL r s).summary.breakdown.end_of_life
        = (recalculateEOL r "baseline").summary.breakdown.end_of_life := by
  constructor
  · rfl
  · show round4 (newEolOf r s) = round4 (newEolOf r "baseline")
    rw [newEolOf_eq, newEolOf_eq, mixOf_unknown s h1 h2 h3 h4, mixOf_baseline]

/-- C10 witness: the concrete mistyped selector "basline" is recorded
verbatim while the numbers come from the baseline mix. -/
theorem C10_records_unknown_name_amended_witness :
    (("basline" : String) ≠ "baseline" ∧ ("basline" : String) ≠ "best_case"
      ∧ ("basline" : String) ≠ "worst_case"
      ∧ ("basline" : String) ∉ OBJECT_PROTOTYPE_KEYS)
    ∧ ((recalculateEOL sampleResult "basline").summary.eol_scenario = "basline"
      ∧ (recalculateEOL sampleResult "basline").summary.breakdown.end_of_life
        = (recalculateEOL sampleResult "baseline").summary.breakdown.end_of_life) := by
  refine ⟨⟨by decide, by decide, by decide, by decide⟩, ?_⟩
  exact C10_records_unknown_name_amended sampleResult "basline"
    (by decide) (by decide) (by decide) (by decide)

/-- Round half away from zero, following the spec's words: sign(t) times
round-half-up of `|t|`. -/
def halfAwayRound (t : ℚ) : ℤ :=
  if 0 ≤ t then ⌊t + 1/2⌋ else -⌊-t + 1/2⌋

/-- The spec's rounding policy, following its words: four decimal places,
round half away from zero — sign(x) times round-half-up of `|x|` at 4
decimals. Stated separately from `round4` so the two can be compared. -/
def specRound4 (x : ℚ) : ℚ := (halfAwayRound (x * 10000) : ℚ) / 10000

/-- C3 counterexample: on a concrete result whose best_case EOL value is
exactly -1/20000, the code stores end_of_life 0 (Math.round rounds the
half up, toward zero here) while round-half-away-from-zero at 4 decimals
gives -0.0001; the two rounding functions differ at this input. -/
theorem C3_rounding_counterexample :
    newEolOf negHalfResult "best_case" = -(1/20000)
    ∧ (recalculateEOL negHalfResult "best_case").summary.breakdown.end_of_life = 0
    ∧ specRound4 (-(1/20000) : ℚ) = -(1/10000)
    ∧ round4 (-(1/20000) : ℚ) ≠ specRound4 (-(1/20000) : ℚ) := by
  have h2 : (recalculateEOL negHalfResult "best_case").summary.breakdown.end_of_life = 0 := by
    show round4 (newEolOf negHalfResult "best_case") = 0
    rw [negHalf_newEol]
    norm_num [round4, jsRound]
  have h3 : specRound4 (-(1/20000) : ℚ) = -(1/10000) := by
    unfold specRound4 halfAwayRound
    rw [if_neg (by norm_num)]
    norm_num
  refine ⟨negHalf_newEol, h2, h3, ?_⟩
  rw [h3]
  norm_num [round4, jsRound]

/-- C3 amended: the quantities emitted by `recalculateEOL` (end_of_life
and the total; the link value goes through the same function on `|newEol|`)
are rounded to 4 decimals by `round4`, which is `Math.round` semantics —
floor(x·10⁴ + 1/2)/10⁴, round half toward positive infinity. This agrees
with the claimed sign(x)·half-up(|x|) whenever x is nonnegative or x·10⁴
is not an exact half-integer; it differs only at negative half-ticks. -/
theorem C3_rounding_amended (r : SankeyData) (s : String) (x : ℚ)
    (h : 0 ≤ x ∨ Int.fract (x * 10000 + 1/2) ≠ 0) :
    ((recalculateEOL r s).summary.breakdown.end_of_life = round4 (newEolOf r s)
      ∧ (recalculateEOL r s).summary.total_co2e_kg = round4 (newTotalOf r s))
    ∧ round4 x = specRound4 x := by
  refine ⟨⟨rfl, rfl⟩, ?_⟩
  unfold round4 specRound4 halfAwayRound jsRound
  rcases le_or_lt 0 (x * 10000) with ht | ht
  · rw [if_pos ht]
  · rw [if_neg (not_le.mpr ht)]
    have hf : Int.fract (x * 10000 + 1/2) ≠ 0 := by
      rcases h with h0 | hf
      · exfalso; nlinarith
      · exact hf
    rw [floor_half_symm (x * 10000) hf]

/-- C3 witness: the amended rounding agreement at the concrete
nonnegative input 1/3. -/
theorem C3_rounding_amended_witness :
    ((0 : ℚ) ≤ 1/3 ∨ Int.fract ((1/3 : ℚ) * 10000 + 1/2) ≠ 0)
    ∧ round4 ((1/3 : ℚ)) = specRound4 ((1/3 : ℚ)) := by
  have h : (0 : ℚ) ≤ 1/3 ∨ Int.fract ((1/3 : ℚ) * 10000 + 1/2) ≠ 0 :=
    Or.inl (by norm_num)
  exact ⟨h, (C3_rounding_amended sampleResult "baseline" (1/3) h).2⟩

/-- C4 counterexample: the client lookup of the unknown method "compost"
returns no factor, yet the blended-factor computation proceeds and treats
it as zero (the `?? 0` default): a mix allocating everything to "compost"
yields blended factor 0, not an error. -/
theorem C4_unknown_key_counterexample :
    recordGet EOL_METHOD_FACTORS "compost" = none
    ∧ blendedFactorOfMix [("compost", 1)] = 0 := by
  have h : recordGet EOL_METHOD_FACTORS "compost" = none := rfl
  refine ⟨h, ?_⟩
  unfold blendedFactorOfMix
  simp [h]

/-- C4 amended: the client recalculation never raises an UnknownFactorKey
error — an unknown method key is silently given factor 0 by `?? 0` — but
the zero default is unreachable from `recalculateEOL`: every method key in
the mix selected for any scenario string resolves in EOL_METHOD_FACTORS. -/
theorem C4_unknown_key_amended (s : String) :
    ∀ p ∈ mixOf s, (recordGet EOL_METHOD_FACTORS p.1).isSome = true := by
  intro p hp
  rcases mixOf_cases s with h | h | h | h <;> rw [h] at hp <;>
    simp only [baselineMix, bestCaseMix, worstCaseMix, List.mem_cons,
      List.not_mem_nil, or_false] at hp <;>
    rcases hp with hp | hp | hp <;> subst hp <;> rfl

/-- C4 witness: the landfill entry of the baseline mix resolves. -/
theorem C4_unknown_key_amended_witness :
    (("landfill", (0.6 : ℚ)) ∈ mixOf "baseline")
    ∧ (recordGet EOL_METHOD_FACTORS (("landfill", (0.6 : ℚ)) : String × ℚ).1).isSome
        = true := by
  have hm : (("landfill", (0.6 : ℚ)) ∈ mixOf "baseline") := by
    simp [mixOf_baseline, baselineMix]
  exact ⟨hm, C4_unknown_key_amended "baseline" _ hm⟩

/-- The source field of an updated link is unchanged. -/
lemma updateLink_source (e : ℚ) (l : SankeyLink) :
    (updateLink e l).source = l.source := by
  unfold updateLink
  split <;> rfl

/-- The target field of an updated link is unchanged. -/
lemma updateLink_target (e : ℚ) (l : SankeyLink) :
    (updateLink e l).target = l.target := by
  unfold updateLink
  split <;> rfl

/-- C7 counterexample: on a concrete result whose best_case EOL value is
exactly -1/20000, the recalculated eol→total link carries value 0.0001
(the rounding of `|newEol|`) while the stored end_of_life is 0, so the
link value differs from the absolute value of the summary field. -/
theorem C7_edge_counterexample :
    (recalculateEOL negHalfResult "best_case").links
      = [SankeyLink.mk "eol" "total" (1/10000)]
    ∧ (recalculateEOL negHalfResult "best_case").summary.breakdown.end_of_life = 0
    ∧ ((1 : ℚ)/10000)
        ≠ |(recalculateEOL negHalfResult "best_case").summary.breakdown.end_of_life| := by
  have habs : |newEolOf negHalfResult "best_case"| = 1/20000 := by
    rw [negHalf_newEol, abs_neg, abs_of_nonneg (by norm_num : (0:ℚ) ≤ 1/20000)]
  have hval : round4 |newEolOf negHalfResult "best_case"| = 1/10000 := by
    rw [habs]
    norm_num [round4, jsRound]
  have hupd : updateLink (newEolOf negHalfResult "best_case")
      (SankeyLink.mk "eol" "total" 0.0001) = SankeyLink.mk "eol" "total" (1/10000) := by
    unfold updateLink
    have hc : ((SankeyLink.mk "eol" "total" (0.0001 : ℚ)).source == "eol"
        && (SankeyLink.mk "eol" "total" (0.0001 : ℚ)).target == "total") = true := rfl
    rw [if_pos hc]
    exact congrArg (SankeyLink.mk "eol" "total") hval
  have heol : (recalculateEOL negHalfResult "best_case").summary.breakdown.end_of_life
      = 0 := by
    show round4 (newEolOf negHalfResult "best_case") = 0
    rw [negHalf_newEol]
    norm_num [round4, jsRound]
  refine ⟨?_, heol, ?_⟩
  · show List.map (updateLink (newEolOf negHalfResult "best_case"))
        [SankeyLink.mk "eol" "total" 0.0001] = _
    rw [List.map_cons, List.map_nil, hupd]
  · rw [heol]
    norm_num

/-- C7 amended: every eol→total link of a recalculated result carries
`round4 |newEol|`; this equals `|end_of_life|` of the summary whenever the
exact new EOL value is nonnegative or its multiple by 10⁴ is not an exact
half-integer — the two can differ only at negative half-ticks, where the
edge rounds the half up in magnitude and the summary rounds it toward
zero. -/
theorem C7_edge_amended (r : SankeyData) (s : String)
    (h : 0 ≤ newEolOf r s ∨ Int.fract (newEolOf r s * 10000 + 1/2) ≠ 0) :
    (∀ l ∈ (recalculateEOL r s).links, l.source = "eol" → l.target = "total" →
      l.value = round4 |newEolOf r s|)
    ∧ round4 |newEolOf r s|
        = |(recalculateEOL r s).summary.breakdown.end_of_life| := by
  constructor
  · intro l hl hsrc htgt
    rcases List.mem_map.mp hl with ⟨a, _, rfl⟩
    have hs1 : a.source = "eol" := by rwa [updateLink_source] at hsrc
    have ht1 : a.target = "total" := by rwa [updateLink_target] at htgt
    have hcond : (a.source == "eol" && a.target == "total") = true := by
      rw [hs1, ht1]
      rfl
    show (updateLink (newEolOf r s) a).value = round4 |newEolOf r s|
    unfold updateLink
    rw [if_pos hcond]
  · rw [round4_abs _ h]
    rfl

/-- C7 witness: on a concrete baseline recalculation the eol→total link
value 0.44 equals `round4 |newEol|`, which equals `|end_of_life|`. -/
theorem C7_edge_amended_witness :
    ((0 ≤ newEolOf sampleResult "baseline"
        ∨ Int.fract (newEolOf sampleResult "baseline" * 10000 + 1/2) ≠ 0)
      ∧ SankeyLink.mk "eol" "total" (0.44 : ℚ)
          ∈ (recalculateEOL sampleResult "baseline").links
      ∧ (SankeyLink.mk "eol" "total" (0.44 : ℚ)).source = "eol"
      ∧ (SankeyLink.mk "eol" "total" (0.44 : ℚ)).target = "total")
    ∧ (SankeyLink.mk "eol" "total" (0.44 : ℚ)).value = round4 |newEolOf sampleResult "baseline"|
    ∧ round4 |newEolOf sampleResult "baseline"|
        = |(recalculateEOL sampleResult "baseline").summary.breakdown.end_of_life| := by
  have he : newEolOf sampleResult "baseline" = 0.44 := by
    rw [newEolOf_eq, mixOf_baseline, blended_baseline]
    norm_num [weightSum, sampleResult]
  have hpos : 0 ≤ newEolOf sampleResult "baseline"
      ∨ Int.fract (newEolOf sampleResult "baseline" * 10000 + 1/2) ≠ 0 := by
    left
    rw [he]
    norm_num
  have hupd1 : updateLink (newEolOf sampleResult "baseline")
      (SankeyLink.mk "materials" "total" 2.0) = SankeyLink.mk "materials" "total" 2.0 := rfl
  have hupd2 : updateLink (newEolOf sampleResult "baseline")
      (SankeyLink.mk "eol" "total" 0.44) = SankeyLink.mk "eol" "total" (0.44 : ℚ) := by
    unfold updateLink
    have hc : ((SankeyLink.mk "eol" "total" (0.44 : ℚ)).source == "eol"
        && (SankeyLink.mk "eol" "total" (0.44 : ℚ)).target == "total") = true := rfl
    rw [if_pos hc]
    refine congrArg (SankeyLink.mk "eol" "total") ?_
    rw [he, abs_of_nonneg (by norm_num : (0:ℚ) ≤ 0.44)]
    norm_num [round4, jsRound]
  have hmap : (recalculateEOL sampleResult "baseline").links
      = [SankeyLink.mk "materials" "total" 2.0, SankeyLink.mk "eol" "total" (0.44 : ℚ)] := by
    show List.map (updateLink (newEolOf sampleResult "baseline"))
        [SankeyLink.mk "materials" "total" 2.0, SankeyLink.mk "eol" "total" 0.44] = _
    rw [List.map_cons, List.map_cons, List.map_nil, hupd1, hupd2]
  have hmem : SankeyLink.mk "eol" "total" (0.44 : ℚ)
      ∈ (recalculateEOL sampleResult "baseline").links := by
    rw [hmap]
    exact List.mem_cons.mpr (Or.inr (List.mem_cons.mpr (Or.inl rfl)))
  have h := C7_edge_amended sampleResult "baseline" hpos
  exact ⟨⟨hpos, hmem, rfl, rfl⟩, h.1 _ hmem rfl rfl, h.2⟩
